import Mathlib

/-!
Verification of the aggregation core of `src/reddit_population.py`.

The Python program streams records (dicts) from a document store, classifies
each record's payload into one of three format categories, runs four field
extractors under per-record failure isolation, folds the results into running
accumulators, and finally sorts the collected `(id, timestamp)` pairs and
picks a start/last date for the summary.

The shallow embedding below models:
  - Python values reachable in this program as the inductive `Val`
    (`None`, booleans, numbers as integers, strings, lists, dicts);
  - Python truthiness as `Val.truthy`;
  - `dict.get(k, default)` as `pyGet` (raising `AttributeError` on a
    non-dict receiver, as Python does);
  - `float(x)` coercion as `pyFloat` (numbers and booleans coerce; strings
    coerce exactly when they are optionally-signed decimal integer literals,
    a faithful restriction of Python's numeric-literal parsing; `None`,
    lists and dicts raise `TypeError`);
  - the classifier `detect_format` and the helpers `safe_source` and
    `accumulate_ids`, line by line from the source;
  - the per-record body of `main`'s loop as `stepWith` / `processOne`, and
    the loop itself as `runLoop` threading an explicit `AggState`;
  - the summary reduction (lines 159-170) as `pySortTs` (Python's stable
    `list.sort` with key `(x[1] is None, x[1])`, modelled as the stable
    insertion sort, which computes the same unique stable ordering) and
    `summaryDates`.

Extractor calls (`ut.timestamp`, `ut.landing_pages`, `ut.key_ids`,
`ut.impressions`) are external collaborators; they are modelled as an
arbitrary bundle `Extractors` of fallible functions, and the `try/except`
wrappers around each call as `isolate`. An uncaught exception anywhere else
aborts the whole run, which the embedding models by `Except PyErr`.
-/

/-- Python exception classes that the modelled code can raise. -/
inductive PyErr where
  | attributeError
  | typeError
deriving DecidableEq

/-- Python values reachable in this program: `None`, booleans, numbers
(modelled as integers), strings, lists, and string-keyed dicts (modelled as
association lists looked up first-match-first, with distinct keys in every
concrete dict considered here). -/
inductive Val where
  | none
  | bool (b : Bool)
  | int (n : Int)
  | str (s : String)
  | list (xs : List Val)
  | dict (d : List (String × Val))

/-- Python truthiness: `None` and `False` are falsy, numbers are truthy when
nonzero, strings and containers when nonempty. -/
def Val.truthy : Val → Bool
  | Val.none => false
  | Val.bool b => b
  | Val.int n => n != 0
  | Val.str s => !(s == "")
  | Val.list xs => !xs.isEmpty
  | Val.dict d => !d.isEmpty

/-- First-match lookup in an association-list dict, with a default: the value
of `d.get(k, dflt)` when `d` is known to be a dict. -/
def dictGet (d : List (String × Val)) (k : String) (dflt : Val) : Val :=
  match d.find? (fun p => p.1 == k) with
  | some p => p.2
  | Option.none => dflt

/-- `x.get(k, dflt)`: succeeds on a dict, raises `AttributeError` on any
other receiver (as `.get` does in Python). -/
def pyGet (x : Val) (k : String) (dflt : Val) : Except PyErr Val :=
  match x with
  | Val.dict d => Except.ok (dictGet d k dflt)
  | _ => Except.error PyErr.attributeError

/-- Source lines 19-20: `return hit.get("_source", {}) or {}` — a falsy
`_source` (missing, `None`, empty, `0`, `False`) is replaced by `{}`. -/
def safe_source (hit : Val) : Except PyErr Val :=
  match pyGet hit "_source" (Val.dict []) with
  | Except.error e => Except.error e
  | Except.ok v => Except.ok (if v.truthy then v else Val.dict [])

/-- The regex `^https?://i\.redd\.it` applied by `re.match` (anchored at the
start of the string, case-sensitive). -/
def isRedditImageUrl (u : String) : Bool :=
  "https://i.redd.it".toList.isPrefixOf u.toList
    || "http://i.redd.it".toList.isPrefixOf u.toList

/-- Source lines 23-31: the format classifier. `src.get` raises
`AttributeError` when the truthy `_source` is not a dict, and `re.match`
raises `TypeError` when the (truthy) `url` field is not a string; both
propagate out of `detect_format` uncaught, exactly as in Python. -/
def detect_format (hit : Val) : Except PyErr String :=
  match safe_source hit with
  | Except.error e => Except.error e
  | Except.ok src =>
    match pyGet src "is_video" Val.none with
    | Except.error e => Except.error e
    | Except.ok isv =>
      if isv.truthy then Except.ok "video"
      else
        match pyGet src "url" (Val.str "") with
        | Except.error e => Except.error e
        | Except.ok url0 =>
          match if url0.truthy then url0 else Val.str "" with
          | Val.str u =>
            match pyGet src "is_gallery" Val.none with
            | Except.error e => Except.error e
            | Except.ok isg =>
              if isRedditImageUrl u || isg.truthy then Except.ok "image"
              else Except.ok "text"
          | _ => Except.error PyErr.typeError

/-- Source lines 34-40: spread a list value, append a scalar, skip `None`. -/
def accumulate_ids (ids_list : List Val) (value : Val) : List Val :=
  match value with
  | Val.none => ids_list
  | Val.list xs => ids_list ++ xs
  | v => ids_list ++ [v]

/-- Numeric value of a list of decimal digit characters. -/
def digitsVal (cs : List Char) : Nat :=
  cs.foldl (fun a c => a * 10 + (c.toNat - 48)) 0

/-- Optionally-signed decimal integer literal, or `none`. -/
def parseDec (s : String) : Option Int :=
  match s.toList with
  | [] => Option.none
  | '-' :: cs =>
    if !cs.isEmpty && cs.all Char.isDigit then Option.some (-(digitsVal cs : Int))
    else Option.none
  | cs =>
    if cs.all Char.isDigit then Option.some ((digitsVal cs : Nat) : Int)
    else Option.none

/-- Python `float(v)`: numbers and booleans coerce; strings coerce exactly
when they are numeric literals (restricted here to optionally-signed decimal
integers); `None`, lists and dicts raise `TypeError` (modelled as `none`). -/
def pyFloat : Val → Option Int
  | Val.int n => Option.some n
  | Val.bool b => Option.some (if b then 1 else 0)
  | Val.str s => parseDec s
  | _ => Option.none

/-- Source lines 149-157: the amount added to `imp_ct` for one record's
extracted impressions value: its numeric coercion when `float(imp_val)`
succeeds; on coercion failure, `1` when the value is truthy and `0`
otherwise; `0` when the value is `None`. -/
def impDelta (v : Val) : Int :=
  match v with
  | Val.none => 0
  | v =>
    match pyFloat v with
    | Option.some n => n
    | Option.none => if v.truthy then 1 else 0

/-- The four external field extractors (`ut.timestamp`, `ut.landing_pages`,
`ut.key_ids`, `ut.impressions`): arbitrary fallible functions of the hit. -/
structure Extractors where
  timestamp : Val → Except PyErr Val
  landing_pages : Val → Except PyErr Val
  key_ids : Val → Except PyErr Val
  impressions : Val → Except PyErr Val

/-- The `try/except` wrapper around each extractor call (source lines 87-93,
109-114, 129-134, 139-144): any exception becomes `None` for this record. -/
def isolate (f : Val → Except PyErr Val) (hit : Val) : Val :=
  match f hit with
  | Except.ok v => v
  | Except.error _ => Val.none

/-- The accumulators of `main` (source lines 64-78), field names as in the
source; counts are naturals and the float `imp_ct` is an integer (all
amounts added in the claims' scenarios are integral). -/
structure AggState where
  timestamp_list : List (Val × Val)
  format_list : List (Val × String)
  landing_pages : List (Val × Val)
  landing_pages2 : List Val
  ids : List Val
  impressions : List (Val × Val)
  v_ct : Nat
  i_ct : Nat
  t_ct : Nat
  imp_ct : Int
  doc_count : Nat

/-- The empty accumulators at loop entry. -/
def initState : AggState :=
  { timestamp_list := [], format_list := [], landing_pages := [],
    landing_pages2 := [], ids := [], impressions := [],
    v_ct := 0, i_ct := 0, t_ct := 0, imp_ct := 0, doc_count := 0 }

/-- One iteration of the loop body (source lines 81-157) after the record's
id, isolated extractor results and format category have been resolved:
every append and counter update, in source order. -/
def stepWith (s : AggState) (id ts : Val) (fmt : String) (lp ki imp : Val) :
    AggState :=
  { timestamp_list := s.timestamp_list ++ [(id, ts)]
    format_list := s.format_list ++ [(id, fmt)]
    landing_pages :=
      if lp.truthy then s.landing_pages ++ [(id, lp)] else s.landing_pages
    landing_pages2 :=
      if lp.truthy then
        match lp with
        | Val.list xs => s.landing_pages2 ++ xs
        | v => s.landing_pages2 ++ [v]
      else s.landing_pages2
    ids := accumulate_ids s.ids ki
    impressions := s.impressions ++ [(id, imp)]
    v_ct := if fmt == "video" then s.v_ct + 1 else s.v_ct
    i_ct :=
      if fmt == "video" then s.i_ct
      else if fmt == "image" then s.i_ct + 1 else s.i_ct
    t_ct :=
      if fmt == "video" then s.t_ct
      else if fmt == "image" then s.t_ct else s.t_ct + 1
    imp_ct := s.imp_ct + impDelta imp
    doc_count := s.doc_count + 1 }

/-- One full loop iteration: `hit.get("_id")` and `detect_format` may raise
(aborting the run); the four extractor calls are isolated and never do. -/
def processOne (ex : Extractors) (s : AggState) (hit : Val) :
    Except PyErr AggState :=
  match pyGet hit "_id" Val.none with
  | Except.error e => Except.error e
  | Except.ok id =>
    match detect_format hit with
    | Except.error e => Except.error e
    | Except.ok fmt =>
      Except.ok (stepWith s id (isolate ex.timestamp hit) fmt
        (isolate ex.landing_pages hit) (isolate ex.key_ids hit)
        (isolate ex.impressions hit))

/-- The `for hit in docs:` loop over the stream. -/
def runLoop (ex : Extractors) (s : AggState) : List Val → Except PyErr AggState
  | [] => Except.ok s
  | hit :: rest =>
    match processOne ex s hit with
    | Except.ok s2 => runLoop ex s2 rest
    | Except.error e => Except.error e

/-- The id a dict record carries (total companion of `pyGet hit "_id"`,
agreeing with it on every hit an `Except.ok` run can contain). -/
def docIdOf : Val → Val
  | Val.dict d => dictGet d "_id" Val.none
  | _ => Val.none

/-- The sort-key comparison on `(id, timestamp)` entries induced by
`key=lambda x: (x[1] is None, x[1])` (source line 161): the key of a
non-null entry is smaller than the key of every null entry, and non-null
keys compare by timestamp. `keyLe a b` holds when the key of `a` is less
than or equal to the key of `b`. Timestamps are `Option Int`: the claims
assume the non-null timestamps mutually comparable, which integers model. -/
def keyLe (a b : α × Option Int) : Bool :=
  match a.2, b.2 with
  | Option.none, Option.none => true
  | Option.none, Option.some _ => false
  | Option.some _, Option.none => true
  | Option.some x, Option.some y => decide (x ≤ y)

/-- Stable insertion into a key-sorted list: the inserted entry goes before
the first entry whose key is not strictly smaller, hence before entries of
equal key (in the insertion sort below the inserted entry is always the one
occurring earlier in the input list). -/
def pySortInsert (a : α × Option Int) :
    List (α × Option Int) → List (α × Option Int)
  | [] => [a]
  | b :: bs => if keyLe a b then a :: b :: bs else b :: pySortInsert a bs

/-- `timestamp_list.sort(key=lambda x: (x[1] is None, x[1]))` (source line
161). Python's `list.sort` is a stable sort by the key; a stable sort's
output is uniquely determined by the key order and the input order, and the
stable insertion sort computes it. -/
def pySortTs : List (α × Option Int) → List (α × Option Int)
  | [] => []
  | a :: l => pySortInsert a (pySortTs l)

/-- Source lines 164-170 applied to the sorted list: `start_date` is the
first sorted entry (or `None` when the list is empty); `last_date` is the
last entry of the non-null filter when that filter is nonempty, else the
last sorted entry. -/
def summaryDates (l : List (α × Option Int)) :
    Option (α × Option Int) × Option (α × Option Int) :=
  match pySortTs l with
  | [] => (Option.none, Option.none)
  | x :: xs =>
    let sorted := x :: xs
    let non_none := sorted.filter (fun e => e.2.isSome)
    (Option.some x,
      if non_none.isEmpty then sorted.getLast? else non_none.getLast?)

/-- The spec's notion of a non-empty landing-pages extraction result: not
null, not an empty string, not an empty sequence. On values of the
extractor's contract shape (`Url | sequence<Url> | null`, see `lpShape`)
this coincides with the truthiness test `if filtered_urls:` of line 120. -/
def nonEmptyVal : Val → Bool
  | Val.none => false
  | Val.str s => !(s == "")
  | Val.list xs => !xs.isEmpty
  | _ => true

/-- Contract shape of a landing-pages extraction result (spec 4.2): a
scalar URL string, a sequence of URLs, or null. -/
def lpShape : Val → Bool
  | Val.none => true
  | Val.str _ => true
  | Val.list _ => true
  | _ => false

/-- Number of items one landing-pages value contributes to the flat list
`landing_pages2`: nothing when the value is not recorded, its length when a
sequence, one otherwise. -/
def spreadLen (v : Val) : Nat :=
  if v.truthy then
    match v with
    | Val.list xs => xs.length
    | _ => 1
  else 0

/-- The per-value impressions increment exactly as claim C1 words it:
the numeric value when the value coerces to a number, exactly 1 for every
non-null value failing coercion, 0 for null. Stated from the claim's words,
to be compared with the code's `impDelta`. -/
def claimC1Delta (v : Val) : Int :=
  match v with
  | Val.none => 0
  | v =>
    match pyFloat v with
    | Option.some n => n
    | Option.none => 1

/-- The effective url value of a payload dict after line 27's
`src.get("url", "") or ""`: the url field when truthy, else `""`. -/
def urlVal (d : List (String × Val)) : Val :=
  if (dictGet d "url" (Val.str "")).truthy then dictGet d "url" (Val.str "")
  else Val.str ""

lemma docIdOf_eq {hit id : Val} (h : pyGet hit "_id" Val.none = Except.ok id) :
    docIdOf hit = id := by
  cases hit <;> simp_all [pyGet, docIdOf]

lemma processOne_eq (ex : Extractors) (s : AggState) {hit id : Val}
    {fmt : String} (hid : pyGet hit "_id" Val.none = Except.ok id)
    (hfmt : detect_format hit = Except.ok fmt) :
    processOne ex s hit = Except.ok (stepWith s id (isolate ex.timestamp hit)
      fmt (isolate ex.landing_pages hit) (isolate ex.key_ids hit)
      (isolate ex.impressions hit)) := by
  simp [processOne, hid, hfmt]

lemma processOne_ok_elim {ex : Extractors} {s : AggState} {hit : Val}
    {s2 : AggState} (h : processOne ex s hit = Except.ok s2) :
    ∃ fmt : String, pyGet hit "_id" Val.none = Except.ok (docIdOf hit)
      ∧ detect_format hit = Except.ok fmt
      ∧ s2 = stepWith s (docIdOf hit) (isolate ex.timestamp hit) fmt
          (isolate ex.landing_pages hit) (isolate ex.key_ids hit)
          (isolate ex.impressions hit) := by
  cases hg : pyGet hit "_id" Val.none with
  | error e => simp [processOne, hg] at h
  | ok id =>
    cases hf : detect_format hit with
    | error e => simp [processOne, hg, hf] at h
    | ok fmt =>
      refine ⟨fmt, ?_, rfl, ?_⟩
      · rw [docIdOf_eq hg]
      · rw [docIdOf_eq hg]
        simp only [processOne, hg, hf, Except.ok.injEq] at h
        exact h.symm

lemma stepWith_counts (s : AggState) (id ts : Val) (fmt : String)
    (lp ki imp : Val) :
    (stepWith s id ts fmt lp ki imp).v_ct + (stepWith s id ts fmt lp ki imp).i_ct
      + (stepWith s id ts fmt lp ki imp).t_ct = s.v_ct + s.i_ct + s.t_ct + 1 := by
  cases hv : (fmt == "video") <;> cases hi : (fmt == "image") <;>
    simp [stepWith, hv, hi] <;> omega

lemma stepWith_lp2_len (s : AggState) (id ts : Val) (fmt : String)
    (lp ki imp : Val) :
    (stepWith s id ts fmt lp ki imp).landing_pages2.length
      = s.landing_pages2.length + spreadLen lp := by
  cases hl : lp.truthy <;> cases lp <;>
    simp_all [stepWith, spreadLen]

/-- Master invariant of one pass of the loop: every accumulator of the final
state, relative to the state at loop entry, as a fold over the stream. -/
lemma runLoop_ok_spec (ex : Extractors) (hits : List Val) (s0 s : AggState)
    (h : runLoop ex s0 hits = Except.ok s) :
    s.doc_count = s0.doc_count + hits.length
    ∧ s.timestamp_list = s0.timestamp_list
        ++ hits.map (fun hit => (docIdOf hit, isolate ex.timestamp hit))
    ∧ s.format_list.length = s0.format_list.length + hits.length
    ∧ s.impressions.length = s0.impressions.length + hits.length
    ∧ s.v_ct + s.i_ct + s.t_ct = s0.v_ct + s0.i_ct + s0.t_ct + hits.length
    ∧ s.imp_ct = s0.imp_ct
        + (hits.map (fun hit => impDelta (isolate ex.impressions hit))).sum
    ∧ s.landing_pages = s0.landing_pages ++ hits.filterMap (fun hit =>
        let v := isolate ex.landing_pages hit
        if v.truthy then Option.some (docIdOf hit, v) else Option.none)
    ∧ s.landing_pages2.length = s0.landing_pages2.length
        + (hits.map (fun hit => spreadLen (isolate ex.landing_pages hit))).sum
    := by
  induction hits generalizing s0 with
  | nil =>
    simp [runLoop] at h
    subst h
    simp
  | cons hit rest ih =>
    unfold runLoop at h
    cases hp : processOne ex s0 hit with
    | error e => rw [hp] at h; cases h
    | ok s1 =>
      rw [hp] at h
      obtain ⟨fmt, hid, hfmt, hs1⟩ := processOne_ok_elim hp
      obtain ⟨ihdc, ihts, ihfl, ihimp, ihct, ihic, ihlp, ihlp2⟩ := ih s1 h
      have hc := stepWith_counts s0 (docIdOf hit) (isolate ex.timestamp hit)
        fmt (isolate ex.landing_pages hit) (isolate ex.key_ids hit)
        (isolate ex.impressions hit)
      have hl2 := stepWith_lp2_len s0 (docIdOf hit) (isolate ex.timestamp hit)
        fmt (isolate ex.landing_pages hit) (isolate ex.key_ids hit)
        (isolate ex.impressions hit)
      subst hs1
      refine ⟨?_, ?_, ?_, ?_, ?_, ?_, ?_, ?_⟩
      · rw [ihdc]; simp [stepWith]; omega
      · rw [ihts]; simp [stepWith]
      · rw [ihfl]; simp [stepWith]; omega
      · rw [ihimp]; simp [stepWith]; omega
      · rw [ihct] at *; rw [hc]; simp; omega
      · rw [ihic]; simp [stepWith]; ring
      · rw [ihlp]
        cases hv : (isolate ex.landing_pages hit).truthy <;>
          simp [stepWith, hv]
      · rw [ihlp2, hl2]; simp; omega

lemma impDelta_cases (v : Val) :
    impDelta v = match pyFloat v with
      | Option.some n => n
      | Option.none => if v.truthy then 1 else 0 := by
  cases v <;> rfl

/-- Extractors for the C1 counterexample stream: impressions extraction
yields the non-null string `""` (which fails numeric coercion and is
falsy); the other extractors yield null. -/
def exC1bad : Extractors :=
  { timestamp := fun _ => Except.ok Val.none
    landing_pages := fun _ => Except.ok Val.none
    key_ids := fun _ => Except.ok Val.none
    impressions := fun _ => Except.ok (Val.str "") }

/-- C1, counterexample: on the one-record stream whose extracted impressions
value is `""` — non-null and failing numeric coercion — the claim's rule
("add exactly 1 when non-null but failing numeric coercion", `claimC1Delta`)
predicts a total of 1, but the code's fallback adds 1 only for *truthy*
values, so the run's final aggregate is 0. -/
theorem C1_counterexample :
    (runLoop exC1bad initState [Val.dict [("_id", Val.int 1)]]).map
        AggState.imp_ct = Except.ok 0
    ∧ ([Val.dict [("_id", Val.int 1)]].map (fun hit =>
        claimC1Delta (isolate exC1bad.impressions hit))).sum = 1 :=
  ⟨rfl, rfl⟩

/-- C1 (amended): for every stream the loop accepts, the final impressions
aggregate equals the sum over records of: the numeric value of the
extracted impressions value when it coerces to a number; exactly 1 when it
fails numeric coercion and is truthy; and 0 otherwise — in particular 0
when it is null, and 0 (not 1) for a non-null falsy value that fails
coercion. The scenario `[10, "bad", null, 5]` still totals `16`. -/
theorem C1_impressions_total (ex : Extractors) (hits : List Val)
    (s : AggState) (h : runLoop ex initState hits = Except.ok s) :
    s.imp_ct = (hits.map (fun hit =>
      match pyFloat (isolate ex.impressions hit) with
      | Option.some n => n
      | Option.none =>
        if (isolate ex.impressions hit).truthy then 1 else 0)).sum := by
  have hm := (runLoop_ok_spec ex hits initState s h).2.2.2.2.2.1
  rw [hm]
  simp only [initState, zero_add]
  refine congrArg List.sum (List.map_congr_left ?_)
  intro hit _
  exact impDelta_cases (isolate ex.impressions hit)

/-- Extractors for the C1 witness stream: impressions extraction reads the
`imp` field of the hit; the other extractors yield null. -/
def exC1w : Extractors :=
  { timestamp := fun _ => Except.ok Val.none
    landing_pages := fun _ => Except.ok Val.none
    key_ids := fun _ => Except.ok Val.none
    impressions := fun h => pyGet h "imp" Val.none }

/-- The four-record stream of the spec's impressions scenario: extracted
impressions values `10`, `"bad"`, null, `5`. -/
def hitsC1 : List Val :=
  [ Val.dict [("_id", Val.int 1), ("imp", Val.int 10)]
  , Val.dict [("_id", Val.int 2), ("imp", Val.str "bad")]
  , Val.dict [("_id", Val.int 3)]
  , Val.dict [("_id", Val.int 4), ("imp", Val.int 5)] ]

/-- The state the loop drains into on the C1 witness stream. -/
def sC1 : AggState := (runLoop exC1w initState hitsC1).toOption.getD initState

theorem C1_witness :
    runLoop exC1w initState hitsC1 = Except.ok sC1 ∧ sC1.imp_ct = 16 := by
  have hrun : runLoop exC1w initState hitsC1 = Except.ok sC1 := rfl
  refine ⟨hrun, ?_⟩
  rw [C1_impressions_total exC1w hitsC1 sC1 hrun]
  rfl

/-- C4: when the loop drains the stream, the three format counts sum to the
processed-document count, which equals the length of the format-entries
list, the timestamp-entries list and the impression-entries list. -/
theorem C4_count_invariants (ex : Extractors) (hits : List Val)
    (s : AggState) (h : runLoop ex initState hits = Except.ok s) :
    s.v_ct + s.i_ct + s.t_ct = s.doc_count
    ∧ s.doc_count = s.format_list.length
    ∧ s.doc_count = s.timestamp_list.length
    ∧ s.doc_count = s.impressions.length := by
  obtain ⟨hdc, hts, hfl, himp, hct, -, -, -⟩ :=
    runLoop_ok_spec ex hits initState s h
  refine ⟨?_, ?_, ?_, ?_⟩
  · rw [hct, hdc]; simp [initState]
  · rw [hdc, hfl]; simp [initState]
  · rw [hdc, hts]; simp [initState]
  · rw [hdc, himp]; simp [initState]

/-- Extractors for the spec's three-record scenario: timestamps read the
`ts` field of the hit; the other extractors yield null. -/
def exSc : Extractors :=
  { timestamp := fun h => pyGet h "ts" Val.none
    landing_pages := fun _ => Except.ok Val.none
    key_ids := fun _ => Except.ok Val.none
    impressions := fun _ => Except.ok Val.none }

/-- The spec's three-record scenario stream: a video with timestamp 100, an
i.redd.it image with timestamp 50, and a bare record with no fields. -/
def hitsSc : List Val :=
  [ Val.dict [("_id", Val.int 1),
      ("_source", Val.dict [("is_video", Val.bool true)]), ("ts", Val.int 100)]
  , Val.dict [("_id", Val.int 2),
      ("_source", Val.dict [("url", Val.str "https://i.redd.it/x")]),
      ("ts", Val.int 50)]
  , Val.dict [("_id", Val.int 3)] ]

/-- The state the loop drains into on the three-record scenario stream. -/
def sSc : AggState := (runLoop exSc initState hitsSc).toOption.getD initState

theorem C4_witness :
    runLoop exSc initState hitsSc = Except.ok sSc
    ∧ sSc.v_ct + sSc.i_ct + sSc.t_ct = sSc.doc_count
    ∧ sSc.doc_count = 3 := by
  have hrun : runLoop exSc initState hitsSc = Except.ok sSc := rfl
  exact ⟨hrun, (C4_count_invariants exSc hitsSc sSc hrun).1, rfl⟩

lemma safe_source_dict (h : List (String × Val)) :
    safe_source (Val.dict h) = Except.ok
      (if (dictGet h "_source" (Val.dict [])).truthy
       then dictGet h "_source" (Val.dict []) else Val.dict []) := rfl

lemma safe_source_payload (d : List (String × Val)) :
    safe_source (Val.dict [("_source", Val.dict d)]) =
      Except.ok (Val.dict d) := by
  cases d <;> rfl

/-- The classifier on any record whose effective payload is a dict `d`:
first-match-wins over `is_video`, then the url pattern / gallery flag, then
text; a truthy non-string url raises `TypeError`. -/
lemma detect_format_src (h d : List (String × Val))
    (hd : safe_source (Val.dict h) = Except.ok (Val.dict d)) :
    detect_format (Val.dict h) =
      (if (dictGet d "is_video" Val.none).truthy then Except.ok "video"
       else match urlVal d with
         | Val.str u =>
           if isRedditImageUrl u || (dictGet d "is_gallery" Val.none).truthy
           then Except.ok "image" else Except.ok "text"
         | _ => Except.error PyErr.typeError) := by
  simp [detect_format, hd, pyGet, urlVal]

lemma detect_format_falsy (h : List (String × Val))
    (hfalsy : (dictGet h "_source" (Val.dict [])).truthy = false) :
    safe_source (Val.dict h) = Except.ok (Val.dict [])
    ∧ detect_format (Val.dict h) = Except.ok "text" := by
  have hss : safe_source (Val.dict h) = Except.ok (Val.dict []) := by
    rw [safe_source_dict, hfalsy]
    simp
  refine ⟨hss, ?_⟩
  rw [detect_format_src h [] hss]
  rfl

/-- C2, counterexample: a record whose payload holds a field of an
unexpected type — `url` is the truthy integer `5` — makes the classifier
raise `TypeError` (from `re.match` on a non-string), instead of returning a
category: the classifier is not total on malformed payloads. -/
theorem C2_counterexample :
    detect_format (Val.dict [("_source", Val.dict [("url", Val.int 5)])])
      = Except.error PyErr.typeError := rfl

/-- C2 (amended): the classifier returns one of the three categories — and
degrades a falsy/absent payload to `"text"` — on every record whose
`_source` value is falsy or a mapping whose `url` field, after the
falsy-to-`""` replacement of line 27, is a string. (A truthy non-mapping
`_source`, or a truthy non-string `url`, raises instead; see the
counterexample.) -/
theorem C2_classifier_total (h : List (String × Val))
    (hsrc : (dictGet h "_source" (Val.dict [])).truthy = false
      ∨ ∃ d, dictGet h "_source" (Val.dict []) = Val.dict d)
    (hurl : ∀ d, dictGet h "_source" (Val.dict []) = Val.dict d →
      ∃ u, urlVal d = Val.str u) :
    (∃ c, detect_format (Val.dict h) = Except.ok c
      ∧ (c = "video" ∨ c = "image" ∨ c = "text"))
    ∧ ((dictGet h "_source" (Val.dict [])).truthy = false →
      detect_format (Val.dict h) = Except.ok "text") := by
  refine ⟨?_, fun hf => (detect_format_falsy h hf).2⟩
  rcases hsrc with hf | ⟨d, hd⟩
  · exact ⟨"text", (detect_format_falsy h hf).2, Or.inr (Or.inr rfl)⟩
  · cases htr : (Val.dict d).truthy with
    | false =>
      have hf : (dictGet h "_source" (Val.dict [])).truthy = false := by
        rw [hd]; exact htr
      exact ⟨"text", (detect_format_falsy h hf).2, Or.inr (Or.inr rfl)⟩
    | true =>
      have hss : safe_source (Val.dict h) = Except.ok (Val.dict d) := by
        rw [safe_source_dict, hd, htr]
        simp
      rw [detect_format_src h d hss]
      obtain ⟨u, hu⟩ := hurl d hd
      cases hv : (dictGet d "is_video" Val.none).truthy with
      | true => exact ⟨"video", by simp, Or.inl rfl⟩
      | false =>
        rw [hu]
        cases hg : isRedditImageUrl u
            || (dictGet d "is_gallery" Val.none).truthy with
        | true => exact ⟨"image", by simp [hg], Or.inr (Or.inl rfl)⟩
        | false => exact ⟨"text", by simp [hg], Or.inr (Or.inr rfl)⟩

/-- A concrete record for the C2 witness: its payload is a mapping carrying
only a gallery flag (no url field, no is_video). -/
def hitC2 : List (String × Val) :=
  [("_source", Val.dict [("is_gallery", Val.bool true)])]

theorem C2_witness :
    detect_format (Val.dict hitC2) = Except.ok "video"
    ∨ detect_format (Val.dict hitC2) = Except.ok "image"
    ∨ detect_format (Val.dict hitC2) = Except.ok "text" := by
  have h := C2_classifier_total hitC2
    (Or.inr ⟨[("is_gallery", Val.bool true)], rfl⟩)
    (by intro d hd; cases hd; exact ⟨"", rfl⟩)
  obtain ⟨c, hc, hor⟩ := h.1
  rcases hor with h1 | h1 | h1 <;> rw [h1] at hc
  · exact Or.inl hc
  · exact Or.inr (Or.inl hc)
  · exact Or.inr (Or.inr hc)

/-- C3: classifier precedence, first match wins. For every payload dict `d`
reaching the classifier: a truthy `is_video` yields `"video"` regardless of
any url or gallery flag; otherwise, when the effective url value is a
string, a url matching the `i.redd.it` pattern or a truthy gallery flag
yields `"image"`; otherwise `"text"`. -/
theorem C3_precedence (d : List (String × Val)) :
    ((dictGet d "is_video" Val.none).truthy = true →
      detect_format (Val.dict [("_source", Val.dict d)]) = Except.ok "video")
    ∧ (∀ u, (dictGet d "is_video" Val.none).truthy = false →
        urlVal d = Val.str u →
        (isRedditImageUrl u || (dictGet d "is_gallery" Val.none).truthy)
          = true →
        detect_format (Val.dict [("_source", Val.dict d)]) = Except.ok "image")
    ∧ (∀ u, (dictGet d "is_video" Val.none).truthy = false →
        urlVal d = Val.str u →
        (isRedditImageUrl u || (dictGet d "is_gallery" Val.none).truthy)
          = false →
        detect_format (Val.dict [("_source", Val.dict d)]) = Except.ok "text")
    := by
  have hdf := detect_format_src [("_source", Val.dict d)] d
    (safe_source_payload d)
  refine ⟨?_, ?_, ?_⟩
  · intro hv; rw [hdf, hv]; simp
  · intro u hv hu hm; rw [hdf, hv, hu]; simp [hm]
  · intro u hv hu hm; rw [hdf, hv, hu]; simp [hm]

theorem C3_witness :
    detect_format (Val.dict [("_source", Val.dict
        [("is_video", Val.bool true), ("url", Val.str "https://i.redd.it/a")])])
      = Except.ok "video"
    ∧ detect_format (Val.dict [("_source", Val.dict
        [("url", Val.str "https://i.redd.it/abc")])]) = Except.ok "image"
    ∧ detect_format (Val.dict [("_source", Val.dict
        [("url", Val.str "https://example.com/x")])]) = Except.ok "text" := by
  refine ⟨?_, ?_, ?_⟩
  · exact (C3_precedence
      [("is_video", Val.bool true), ("url", Val.str "https://i.redd.it/a")]).1
      rfl
  · exact (C3_precedence [("url", Val.str "https://i.redd.it/abc")]).2.1
      "https://i.redd.it/abc" rfl rfl rfl
  · exact (C3_precedence [("url", Val.str "https://example.com/x")]).2.2
      "https://example.com/x" rfl rfl rfl

/-- C10: a hit whose `_source` is missing, null or otherwise falsy is
treated as an empty mapping: `safe_source` yields `{}`, the classifier
returns `"text"`, the record is processed (not rejected), and the text
count — and only it — is incremented. -/
theorem C10_falsy_source (h : List (String × Val)) (ex : Extractors)
    (s : AggState)
    (hfalsy : (dictGet h "_source" (Val.dict [])).truthy = false) :
    safe_source (Val.dict h) = Except.ok (Val.dict [])
    ∧ detect_format (Val.dict h) = Except.ok "text"
    ∧ processOne ex s (Val.dict h) = Except.ok (stepWith s
        (dictGet h "_id" Val.none) (isolate ex.timestamp (Val.dict h)) "text"
        (isolate ex.landing_pages (Val.dict h))
        (isolate ex.key_ids (Val.dict h))
        (isolate ex.impressions (Val.dict h)))
    ∧ (∀ s2, processOne ex s (Val.dict h) = Except.ok s2 →
        s2.t_ct = s.t_ct + 1 ∧ s2.v_ct = s.v_ct ∧ s2.i_ct = s.i_ct) := by
  obtain ⟨hss, hdf⟩ := detect_format_falsy h hfalsy
  have hpo := @processOne_eq ex s (Val.dict h)
    (dictGet h "_id" Val.none) "text" rfl hdf
  refine ⟨hss, hdf, hpo, ?_⟩
  intro s2 h2
  rw [hpo] at h2
  cases h2
  simp [stepWith]

/-- A concrete record for the C10 witness: `_source` present but null. -/
def hitC10 : List (String × Val) := [("_id", Val.int 3), ("_source", Val.none)]

/-- The state one processing step leaves on the C10 witness record. -/
def sC10 : AggState :=
  (processOne exSc initState (Val.dict hitC10)).toOption.getD initState

theorem C10_witness :
    safe_source (Val.dict hitC10) = Except.ok (Val.dict [])
    ∧ detect_format (Val.dict hitC10) = Except.ok "text"
    ∧ sC10.t_ct = initState.t_ct + 1 ∧ sC10.v_ct = initState.v_ct
    ∧ sC10.i_ct = initState.i_ct := by
  have h := C10_falsy_source hitC10 exSc initState rfl
  have h3 := h.2.2.2 sC10 rfl
  exact ⟨h.1, h.2.1, h3.1, h3.2.1, h3.2.2⟩

lemma isolate_error {f : Val → Except PyErr Val} {hit : Val} {e : PyErr}
    (h : f hit = Except.error e) : isolate f hit = Val.none := by
  simp [isolate, h]

/-- C8: extractor failures are isolated per (record, extractor) pair. For a
record whose id lookup and classification succeed, whichever single
extractor fails, the step still returns `Except.ok` (the run is not
aborted) and produces exactly the state in which that one field is null and
the other three fields carry their extractors' results; the document count
still increments, and every previously accumulated entry survives as a
prefix (entries of other records are unchanged). -/
theorem C8_extractor_isolation (ex : Extractors) (s : AggState)
    {hit id : Val} {fmt : String}
    (hid : pyGet hit "_id" Val.none = Except.ok id)
    (hfmt : detect_format hit = Except.ok fmt) :
    (∀ e, ex.timestamp hit = Except.error e →
      processOne ex s hit = Except.ok (stepWith s id Val.none fmt
        (isolate ex.landing_pages hit) (isolate ex.key_ids hit)
        (isolate ex.impressions hit)))
    ∧ (∀ e, ex.landing_pages hit = Except.error e →
      processOne ex s hit = Except.ok (stepWith s id
        (isolate ex.timestamp hit) fmt Val.none (isolate ex.key_ids hit)
        (isolate ex.impressions hit)))
    ∧ (∀ e, ex.key_ids hit = Except.error e →
      processOne ex s hit = Except.ok (stepWith s id
        (isolate ex.timestamp hit) fmt (isolate ex.landing_pages hit)
        Val.none (isolate ex.impressions hit)))
    ∧ (∀ e, ex.impressions hit = Except.error e →
      processOne ex s hit = Except.ok (stepWith s id
        (isolate ex.timestamp hit) fmt (isolate ex.landing_pages hit)
        (isolate ex.key_ids hit) Val.none))
    ∧ (∀ s2, processOne ex s hit = Except.ok s2 →
        s2.doc_count = s.doc_count + 1
        ∧ s.timestamp_list <+: s2.timestamp_list
        ∧ s.format_list <+: s2.format_list
        ∧ s.impressions <+: s2.impressions
        ∧ s.landing_pages <+: s2.landing_pages) := by
  have hpo := processOne_eq ex s hid hfmt
  refine ⟨?_, ?_, ?_, ?_, ?_⟩
  · intro e he; rw [hpo, isolate_error he]
  · intro e he; rw [hpo, isolate_error he]
  · intro e he; rw [hpo, isolate_error he]
  · intro e he; rw [hpo, isolate_error he]
  · intro s2 h2
    rw [hpo] at h2
    cases h2
    refine ⟨rfl, List.prefix_append _ _, List.prefix_append _ _,
      List.prefix_append _ _, ?_⟩
    by_cases hv :
        (isolate ex.landing_pages hit).truthy <;>
      simp [stepWith, hv]

/-- Extractors for the C8 witness record: the timestamp extractor raises;
the other three read fields of the hit. -/
def exC8 : Extractors :=
  { timestamp := fun _ => Except.error PyErr.typeError
    landing_pages := fun h => pyGet h "lp" Val.none
    key_ids := fun h => pyGet h "kid" Val.none
    impressions := fun h => pyGet h "imp" Val.none }

/-- A record on which only the timestamp extraction fails. -/
def hitC8 : Val := Val.dict
  [("_id", Val.int 7), ("lp", Val.str "u"), ("kid", Val.int 9),
   ("imp", Val.int 2)]

theorem C8_witness :
    processOne exC8 initState hitC8 = Except.ok (stepWith initState
      (Val.int 7) Val.none "text" (Val.str "u") (Val.int 9) (Val.int 2)) := by
  exact (@C8_extractor_isolation exC8 initState hitC8
    (Val.int 7) "text" rfl rfl).1 PyErr.typeError rfl

lemma truthy_eq_nonEmpty {v : Val} (h : lpShape v = true) :
    v.truthy = nonEmptyVal v := by
  cases v <;> simp_all [lpShape, Val.truthy, nonEmptyVal]

/-- The number of flat landing-page items claim C9 predicts for one
record: 1 for a non-empty scalar, the item count for a non-empty sequence,
0 otherwise. Stated from the claim's words, to be compared with the code's
`spreadLen`. -/
def claimC9Len (v : Val) : Nat :=
  if nonEmptyVal v then
    match v with
    | Val.list xs => xs.length
    | _ => 1
  else 0

lemma spreadLen_eq {v : Val} (h : lpShape v = true) :
    spreadLen v = claimC9Len v := by
  cases v with
  | none => rfl
  | str s => rfl
  | list xs => rfl
  | bool b => exact Bool.noConfusion h
  | int n => exact Bool.noConfusion h
  | dict d => exact Bool.noConfusion h

/-- C9: for every drained stream whose isolated landing-pages results have
the extractor's contract shape (string, sequence, or null), the
landing-page entries list holds exactly the records with a non-empty
result, its length is at most the document count, and the flat list's
length is the sum over landing-page-bearing records of 1 for a scalar and
the item count for a sequence. -/
theorem C9_landing_pages (ex : Extractors) (hits : List Val) (s : AggState)
    (h : runLoop ex initState hits = Except.ok s)
    (hshape : ∀ hit ∈ hits, lpShape (isolate ex.landing_pages hit) = true) :
    s.landing_pages = hits.filterMap (fun hit =>
      if nonEmptyVal (isolate ex.landing_pages hit) then
        Option.some (docIdOf hit, isolate ex.landing_pages hit)
      else Option.none)
    ∧ s.landing_pages.length ≤ s.doc_count
    ∧ s.landing_pages2.length = (hits.map (fun hit =>
        claimC9Len (isolate ex.landing_pages hit))).sum := by
  obtain ⟨hdc, -, -, -, -, -, hlp, hlp2⟩ :=
    runLoop_ok_spec ex hits initState s h
  have h1 : s.landing_pages = hits.filterMap (fun hit =>
      if nonEmptyVal (isolate ex.landing_pages hit) then
        Option.some (docIdOf hit, isolate ex.landing_pages hit)
      else Option.none) := by
    rw [hlp]
    simp only [initState, List.nil_append]
    refine List.filterMap_congr ?_
    intro hit hm
    rw [truthy_eq_nonEmpty (hshape hit hm)]
  refine ⟨h1, ?_, ?_⟩
  · rw [h1, hdc]
    simp only [initState, Nat.zero_add]
    exact List.length_filterMap_le _ _
  · have hmap : hits.map (fun hit => spreadLen (isolate ex.landing_pages hit))
        = hits.map (fun hit => claimC9Len (isolate ex.landing_pages hit)) :=
      List.map_congr_left (fun hit hm => spreadLen_eq (hshape hit hm))
    rw [hlp2, hmap]
    simp [initState]

/-- Extractors for the C9 witness stream: landing pages read the `lp`
field; the other extractors yield null. -/
def exC9 : Extractors :=
  { timestamp := fun _ => Except.ok Val.none
    landing_pages := fun h => pyGet h "lp" Val.none
    key_ids := fun _ => Except.ok Val.none
    impressions := fun _ => Except.ok Val.none }

/-- A four-record stream whose landing-pages results are a two-item
sequence, a scalar, an empty sequence, and null. -/
def hitsC9 : List Val :=
  [ Val.dict [("_id", Val.int 1), ("lp", Val.list [Val.str "a", Val.str "b"])]
  , Val.dict [("_id", Val.int 2), ("lp", Val.str "c")]
  , Val.dict [("_id", Val.int 3), ("lp", Val.list [])]
  , Val.dict [("_id", Val.int 4)] ]

/-- The state the loop drains into on the C9 witness stream. -/
def sC9 : AggState := (runLoop exC9 initState hitsC9).toOption.getD initState

theorem C9_witness :
    runLoop exC9 initState hitsC9 = Except.ok sC9
    ∧ sC9.landing_pages.length ≤ sC9.doc_count
    ∧ sC9.landing_pages.length = 2
    ∧ sC9.landing_pages2.length = 3 := by
  have hrun : runLoop exC9 initState hitsC9 = Except.ok sC9 := rfl
  have hsh : ∀ hit ∈ hitsC9, lpShape (isolate exC9.landing_pages hit)
      = true := by decide
  obtain ⟨-, h2, h3⟩ := C9_landing_pages exC9 hitsC9 sC9 hrun hsh
  exact ⟨hrun, h2, rfl, by rw [h3]; rfl⟩

lemma keyLe_total (a b : α × Option Int) :
    keyLe a b = true ∨ keyLe b a = true := by
  rcases a with ⟨x, ta⟩
  rcases b with ⟨y, tb⟩
  cases ta <;> cases tb <;> simp [keyLe] <;> omega

lemma keyLe_trans {a b c : α × Option Int} (h1 : keyLe a b = true)
    (h2 : keyLe b c = true) : keyLe a c = true := by
  rcases a with ⟨x, ta⟩
  rcases b with ⟨y, tb⟩
  rcases c with ⟨z, tc⟩
  cases ta <;> cases tb <;> cases tc <;> simp_all [keyLe] <;> omega

lemma mem_pySortInsert {x e : α × Option Int} {l : List (α × Option Int)} :
    x ∈ pySortInsert e l ↔ x = e ∨ x ∈ l := by
  induction l with
  | nil => simp [pySortInsert]
  | cons b bs ih =>
    by_cases hb : keyLe e b = true
    · simp [pySortInsert, hb]
    · simp [pySortInsert, hb, ih]
      tauto

lemma pySortInsert_decomp (e : α × Option Int) (l : List (α × Option Int)) :
    ∃ A B, pySortInsert e l = A ++ e :: B ∧ l = A ++ B
      ∧ ∀ b ∈ A, keyLe e b = false := by
  induction l with
  | nil => exact ⟨[], [], rfl, rfl, by simp⟩
  | cons b bs ih =>
    by_cases hb : keyLe e b = true
    · exact ⟨[], b :: bs, by simp [pySortInsert, hb], rfl, by simp⟩
    · obtain ⟨A, B, h1, h2, h3⟩ := ih
      rw [Bool.not_eq_true] at hb
      refine ⟨b :: A, B, ?_, by simp [h2], ?_⟩
      · simp [pySortInsert, hb, h1]
      · intro x hx
        rcases List.mem_cons.mp hx with hx | hx
        · exact hx ▸ hb
        · exact h3 x hx

lemma filter_pySortInsert_neg {p : α × Option Int → Bool}
    {e : α × Option Int} (l : List (α × Option Int)) (hp : p e = false) :
    (pySortInsert e l).filter p = l.filter p := by
  obtain ⟨A, B, h1, h2, -⟩ := pySortInsert_decomp e l
  rw [h1, h2]
  simp [List.filter_append, List.filter_cons, hp]

lemma filter_pySortInsert_pos {p : α × Option Int → Bool}
    {e : α × Option Int} (l : List (α × Option Int)) (hp : p e = true)
    (hple : ∀ b, p b = true → keyLe e b = true) :
    (pySortInsert e l).filter p = e :: l.filter p := by
  obtain ⟨A, B, h1, h2, h3⟩ := pySortInsert_decomp e l
  have hA : A.filter p = [] := by
    rw [List.filter_eq_nil_iff]
    intro b hb hpb
    have h4 := h3 b hb
    rw [hple b hpb] at h4
    exact Bool.noConfusion h4
  rw [h1, h2, List.filter_append, List.filter_append, hA]
  simp [List.filter_cons, hp]

lemma pySortInsert_append_right {e : α × Option Int}
    (A B : List (α × Option Int)) (h : ∀ b ∈ B, keyLe e b = true) :
    pySortInsert e (A ++ B) = pySortInsert e A ++ B := by
  induction A with
  | nil =>
    cases B with
    | nil => rfl
    | cons b bs => simp [pySortInsert, h b (by simp)]
  | cons a as ih =>
    by_cases ha : keyLe e a = true
    · simp [pySortInsert, ha]
    · rw [Bool.not_eq_true] at ha
      simp only [List.cons_append, pySortInsert, ha]
      simp [ih]

lemma pySortInsert_append_left {e : α × Option Int}
    (A B : List (α × Option Int)) (h : ∀ b ∈ A, keyLe e b = false) :
    pySortInsert e (A ++ B) = A ++ pySortInsert e B := by
  induction A with
  | nil => rfl
  | cons a as ih =>
    have ha : keyLe e a = false := h a (by simp)
    simp only [List.cons_append, pySortInsert, ha]
    simp only [Bool.false_eq_true, if_false, List.cons.injEq, true_and]
    exact ih (fun b hb => h b (by simp [hb]))

lemma mem_pySortTs {x : α × Option Int} {l : List (α × Option Int)} :
    x ∈ pySortTs l ↔ x ∈ l := by
  induction l with
  | nil => simp [pySortTs]
  | cons e l ih => simp [pySortTs, mem_pySortInsert, ih]

lemma pairwise_pySortInsert {e : α × Option Int}
    {l : List (α × Option Int)}
    (h : l.Pairwise (fun a b => keyLe a b = true)) :
    (pySortInsert e l).Pairwise (fun a b => keyLe a b = true) := by
  induction l with
  | nil => simp [pySortInsert]
  | cons b bs ih =>
    rcases List.pairwise_cons.mp h with ⟨hb, hbs⟩
    by_cases he : keyLe e b = true
    · rw [show pySortInsert e (b :: bs) = e :: b :: bs by
        simp [pySortInsert, he]]
      refine List.pairwise_cons.mpr ⟨?_, h⟩
      intro x hx
      rcases List.mem_cons.mp hx with hx | hx
      · exact hx ▸ he
      · exact keyLe_trans he (hb x hx)
    · have he2 : keyLe b e = true := (keyLe_total e b).resolve_left he
      rw [show pySortInsert e (b :: bs) = b :: pySortInsert e bs by
        simp [pySortInsert, he]]
      refine List.pairwise_cons.mpr ⟨?_, ih hbs⟩
      intro x hx
      rcases mem_pySortInsert.mp hx with hx | hx
      · exact hx ▸ he2
      · exact hb x hx

lemma sorted_pySortTs (l : List (α × Option Int)) :
    (pySortTs l).Pairwise (fun a b => keyLe a b = true) := by
  induction l with
  | nil => simp [pySortTs]
  | cons e l ih => exact pairwise_pySortInsert ih

lemma pySortTs_of_pairwise {l : List (α × Option Int)}
    (h : l.Pairwise (fun a b => keyLe a b = true)) : pySortTs l = l := by
  induction l with
  | nil => rfl
  | cons e l ih =>
    rcases List.pairwise_cons.mp h with ⟨he, hl⟩
    rw [show pySortTs (e :: l) = pySortInsert e (pySortTs l) from rfl, ih hl]
    cases l with
    | nil => rfl
    | cons b bs => simp [pySortInsert, he b (by simp)]

lemma pySortInsert_all_none {e : α × Option Int} (he : e.2 = Option.none)
    (N : List (α × Option Int)) (hN : ∀ b ∈ N, b.2 = Option.none) :
    pySortInsert e N = e :: N := by
  cases N with
  | nil => rfl
  | cons n ns =>
    have hn := hN n (by simp)
    have hk : keyLe e n = true := by
      rcases e with ⟨x, te⟩
      rcases n with ⟨y, tn⟩
      simp only at he hn
      rw [he, hn]
      rfl
    simp [pySortInsert, hk]

lemma pySortTs_decomp (l : List (α × Option Int)) :
    pySortTs l = pySortTs (l.filter (fun e => e.2.isSome))
      ++ l.filter (fun e => e.2.isNone) := by
  induction l with
  | nil => rfl
  | cons e l ih =>
    rw [show pySortTs (e :: l) = pySortInsert e (pySortTs l) from rfl, ih]
    cases he : e.2 with
    | none =>
      have hfs : (e :: l).filter (fun x => x.2.isSome)
          = l.filter (fun x => x.2.isSome) := by
        simp [List.filter_cons, he]
      have hfn : (e :: l).filter (fun x => x.2.isNone)
          = e :: l.filter (fun x => x.2.isNone) := by
        simp [List.filter_cons, he]
      rw [hfs, hfn]
      rw [pySortInsert_append_left _ _ ?_]
      · rw [pySortInsert_all_none he _ ?_]
        intro b hb
        exact Option.isNone_iff_eq_none.mp (List.mem_filter.mp hb).2
      · intro b hb
        have hbs := (List.mem_filter.mp (mem_pySortTs.mp hb)).2
        obtain ⟨tb, htb⟩ := Option.isSome_iff_exists.mp hbs
        rcases e with ⟨x, te⟩
        rcases b with ⟨y, tbv⟩
        simp only at he htb
        rw [he] at *
        rw [htb]
        rfl
    | some t =>
      have hfs : (e :: l).filter (fun x => x.2.isSome)
          = e :: l.filter (fun x => x.2.isSome) := by
        simp [List.filter_cons, he]
      have hfn : (e :: l).filter (fun x => x.2.isNone)
          = l.filter (fun x => x.2.isNone) := by
        simp [List.filter_cons, he]
      rw [hfs, hfn]
      rw [show pySortTs (e :: l.filter (fun x => x.2.isSome))
          = pySortInsert e (pySortTs (l.filter (fun x => x.2.isSome)))
        from rfl]
      refine pySortInsert_append_right _ _ ?_
      intro b hb
      have hbn := Option.isNone_iff_eq_none.mp (List.mem_filter.mp hb).2
      rcases e with ⟨x, te⟩
      rcases b with ⟨y, tbv⟩
      simp only at he hbn
      rw [he, hbn]
      rfl

lemma filter_tie_pySortTs (l : List (α × Option Int)) (t : Int) :
    (pySortTs l).filter (fun e => e.2 == Option.some t)
      = l.filter (fun e => e.2 == Option.some t) := by
  induction l with
  | nil => rfl
  | cons e l ih =>
    rw [show pySortTs (e :: l) = pySortInsert e (pySortTs l) from rfl]
    by_cases hp : (e.2 == Option.some t) = true
    · rw [filter_pySortInsert_pos _ hp ?_, ih, List.filter_cons, if_pos hp]
      intro b hpb
      have heq : e.2 = Option.some t := by simpa using hp
      have hbq : b.2 = Option.some t := by simpa using hpb
      rcases e with ⟨x, te⟩
      rcases b with ⟨y, tb⟩
      simp only at heq hbq
      rw [heq, hbq]
      simp [keyLe]
    · rw [Bool.not_eq_true] at hp
      rw [filter_pySortInsert_neg _ hp, ih, List.filter_cons]
      simp [hp]

lemma head?_filter (p : β → Bool) (l : List β) :
    (l.filter p).head? = l.find? p := by
  induction l with
  | nil => rfl
  | cons a l ih =>
    cases hp : p a <;> simp [List.filter_cons, List.find?_cons, hp, ih]

lemma getLast?_filter (p : β → Bool) (l : List β) :
    (l.filter p).getLast? = l.reverse.find? p := by
  rw [List.getLast?_eq_head?_reverse, ← List.filter_reverse, head?_filter]

/-- C5: the summary sort places every null-timestamp entry strictly after
every non-null entry regardless of input order (the result is the sorted
non-null entries followed by the null entries in their original relative
order), orders the result ascending by the sort key (hence non-null entries
ascending by timestamp), and is stable: for every timestamp value, the
entries carrying it keep their relative order from before the sort. -/
theorem C5_sort_order_and_stability (l : List (α × Option Int)) :
    pySortTs l = pySortTs (l.filter (fun e => e.2.isSome))
      ++ l.filter (fun e => e.2.isNone)
    ∧ (pySortTs l).Pairwise (fun a b => keyLe a b = true)
    ∧ (∀ t : Int, (pySortTs l).filter (fun e => e.2 == Option.some t)
        = l.filter (fun e => e.2 == Option.some t)) :=
  ⟨pySortTs_decomp l, sorted_pySortTs l, filter_tie_pySortTs l⟩

/-- C6: sorting the already-sorted timestamp entries a second time with the
same key produces an identical sequence. -/
theorem C6_sort_idempotent (l : List (α × Option Int)) :
    pySortTs (pySortTs l) = pySortTs l :=
  pySortTs_of_pairwise (sorted_pySortTs l)

/-- C7: `start_date` is the first element of the sorted sequence (or the
"no data" sentinel `None` when it is empty); `last_date` is the last entry
whose timestamp is non-null (the rightmost such entry of the sorted
sequence) or, when every entry's timestamp is null, the last element
overall, or the same sentinel when the sequence is empty. -/
theorem C7_start_last (l : List (α × Option Int)) :
    (summaryDates l).1 = (pySortTs l).head?
    ∧ (summaryDates l).2 =
        (match (pySortTs l).reverse.find? (fun e => e.2.isSome) with
         | Option.some y => Option.some y
         | Option.none => (pySortTs l).getLast?) := by
  rw [← getLast?_filter]
  unfold summaryDates
  cases hs : pySortTs l with
  | nil => simp
  | cons x xs =>
    refine ⟨rfl, ?_⟩
    cases hnn : (x :: xs).filter (fun e => e.2.isSome) with
    | nil => simp [hnn]
    | cons n ns =>
      cases hgl : (n :: ns).getLast? with
      | none => exact absurd (List.getLast?_eq_none_iff.mp hgl) (by simp)
      | some y => simp [hnn, hgl]
